import Mathlib

/-!
# gopkg: a Caddy handler for Go vanity import paths

A shallow embedding of `gopkg.go`.  Go strings are Lean `String`s, a method with a
pointer receiver returns the updated receiver, and an `error` result is an `Option`
(`none` is Go's `nil`).

The handler is driven through three host libraries, which are embedded as far as
`gopkg.go` uses them, under the names they have in Go:

* `caddyfile.Dispenser` (the token cursor of the Caddyfile parser),
* `html/template` (for templates made of text and field actions, which is what
  `DefaultTemplate` is made of),
* `net/http` (the response writer is the sequence of calls it receives; the response
  the server sends is replayed from them, with the content type it sniffs from the body
  when the handler has fixed none).
-/

namespace Gopkg

/-! ## caddyfile.Token and caddyfile.Dispenser -/

/-- A Caddyfile token: the file and line it was read from, and its text. -/
structure Token where
  File : String
  Line : Nat
  Text : String
  deriving DecidableEq, Repr

/-- The dispenser of the Caddyfile parser: the tokens of one directive segment and a
cursor, which is `-1` before the first token. -/
structure Dispenser where
  tokens : List Token
  cursor : Int
  deriving DecidableEq, Repr

/-- An error made by `Dispenser.Err`: the position of the current token and a message. -/
structure ParseError where
  File : String
  Line : Nat
  Msg : String
  deriving DecidableEq, Repr

/-- `caddyfile.NewDispenser`: the cursor starts before the first token. -/
def NewDispenser (tokens : List Token) : Dispenser :=
  { tokens := tokens, cursor := -1 }

/-- The token at index `i`; every use is guarded by a bounds test, as in Go. -/
def Dispenser.tokenAt (d : Dispenser) (i : Int) : Token :=
  d.tokens.getD i.toNat { File := "", Line := 0, Text := "" }

/-- `Dispenser.Next`: move to the next token of the segment, whatever line it is on. -/
def Dispenser.Next (d : Dispenser) : Dispenser × Bool :=
  if d.cursor < (d.tokens.length : Int) - 1 then
    ({ d with cursor := d.cursor + 1 }, true)
  else
    (d, false)

/-- `Dispenser.Val`: the text of the current token, empty when there is none. -/
def Dispenser.Val (d : Dispenser) : String :=
  if d.cursor < 0 ∨ d.cursor ≥ (d.tokens.length : Int) then ""
  else (d.tokenAt d.cursor).Text

/-- `Dispenser.File`: the file of the current token, empty when there is none. -/
def Dispenser.File (d : Dispenser) : String :=
  if d.cursor < 0 ∨ d.cursor ≥ (d.tokens.length : Int) then ""
  else (d.tokenAt d.cursor).File

/-- `Dispenser.Line`: the line of the current token, zero when there is none. -/
def Dispenser.Line (d : Dispenser) : Nat :=
  if d.cursor < 0 ∨ d.cursor ≥ (d.tokens.length : Int) then 0
  else (d.tokenAt d.cursor).Line

/-- The number of line breaks inside a token (`strings.Count(text, "\n")`). -/
def Token.numLineBreaks (t : Token) : Nat :=
  t.Text.data.count '\n'

/-- Two consecutive tokens stand on the same line of the same file. -/
def Token.sameLine (a b : Token) : Prop :=
  a.File = b.File ∧ a.Line + a.numLineBreaks = b.Line

instance (a b : Token) : Decidable (Token.sameLine a b) :=
  inferInstanceAs (Decidable (a.File = b.File ∧ a.Line + a.numLineBreaks = b.Line))

/-- `Dispenser.nextOnSameLine`: advance if the next token is on the line of the
current one. -/
def Dispenser.nextOnSameLine (d : Dispenser) : Dispenser × Bool :=
  if d.cursor < 0 then
    ({ d with cursor := d.cursor + 1 }, true)
  else if d.cursor ≥ (d.tokens.length : Int) then
    (d, false)
  else if d.cursor < (d.tokens.length : Int) - 1 ∧
      Token.sameLine (d.tokenAt d.cursor) (d.tokenAt (d.cursor + 1)) then
    ({ d with cursor := d.cursor + 1 }, true)
  else
    (d, false)

/-- `Dispenser.NextArg`: load the next token if it is on the same line and is not the
opening brace of a block; otherwise the cursor stays where it was. -/
def Dispenser.NextArg (d : Dispenser) : Dispenser × Bool :=
  let (d1, ok) := d.nextOnSameLine
  if !ok then (d1, false)
  else if d1.Val = "\x7b" then ({ d1 with cursor := d1.cursor - 1 }, false)
  else (d1, true)

/-- `Dispenser.Args` with one target, the only way `gopkg.go` calls it: the target is
passed by value and returned; it is overwritten only when an argument was loaded. -/
def Dispenser.Args (d : Dispenser) (target : String) : Dispenser × String × Bool :=
  let (d1, ok) := d.NextArg
  if !ok then (d1, target, false)
  else (d1, d1.Val, true)

/-- The loop of `Dispenser.RemainingArgs`, `for d.NextArg() { args = append(args, d.Val()) }`,
with a bound on the number of rounds; `none` when the bound is used up. -/
def Dispenser.remainingArgsLoop : Nat → Dispenser → List String → Option (Dispenser × List String)
  | 0, _, _ => none
  | fuel + 1, d, args =>
    let (d1, ok) := d.NextArg
    if ok then Dispenser.remainingArgsLoop fuel d1 (args ++ [d1.Val])
    else some (d1, args)

/-- `Dispenser.RemainingArgs`: load every further argument of the line and return their
texts.  The cursor ends on the last argument loaded.  A round that loads an argument
moves the cursor on by one, so one round per token, one for the step from before the
first token and one to leave the loop are enough. -/
def Dispenser.RemainingArgs (d : Dispenser) : Option (Dispenser × List String) :=
  Dispenser.remainingArgsLoop (d.tokens.length + 2) d []

/-- `Dispenser.Err`: an error at the position of the current token. -/
def Dispenser.Err (d : Dispenser) (msg : String) : ParseError :=
  { File := d.File, Line := d.Line, Msg := msg }

/-- `Dispenser.ArgErr`: the error for a wrong argument count. -/
def Dispenser.ArgErr (d : Dispenser) : ParseError :=
  if d.Val = "\x7b" then
    d.Err "Unexpected token \x27\x7b\x27, expecting argument"
  else
    d.Err ("Wrong argument count or unexpected line ending after \x27" ++ d.Val ++ "\x27")

/-! ## html/template -/

/-- A node of a parsed template: literal text, or the action that prints one field of
the data, written `.Name` between the action delimiters. -/
inductive Node where
  | Text (text : String)
  | Field (name : String)
  deriving DecidableEq, Repr

/-- A parsed template (`*template.Template`): its name and its nodes in order. -/
structure Template where
  Name : String
  Nodes : List Node
  deriving DecidableEq, Repr

/-- The text node for the characters collected so far (kept in reverse); the lexer
makes no node for an empty text. -/
def textNode (acc : List Char) : List Node :=
  if acc = [] then [] else [Node.Text (String.mk acc.reverse)]

/-- The node of an action whose body is `acc` (in reverse): blanks around the body are
dropped, and the body must be a dot followed by a field name. -/
def fieldNode (acc : List Char) : Option Node :=
  match (acc.dropWhile (· = ' ')).reverse.dropWhile (· = ' ') with
  | '.' :: name =>
    if name ≠ [] ∧ name.all (fun c => c.isAlphanum || c = '_') then
      some (Node.Field (String.mk name))
    else none
  | _ => none

/-- The template lexer and parser on the text that is left.  The first argument tells
whether the text is inside an action: outside, text is collected up to the next opening
delimiter; inside, the body of the action up to the closing one.  Only field actions are
in the fragment; any other action is reported as an error. -/
def parseNodes : Bool → List Char → List Char → Except String (List Node)
  | false, acc, [] => .ok (textNode acc)
  | false, acc, '\x7b' :: '\x7b' :: rest =>
    match parseNodes true [] rest with
    | .ok ns => .ok (textNode acc ++ ns)
    | .error e => .error e
  | false, acc, c :: rest => parseNodes false (c :: acc) rest
  | true, _, [] => .error "unclosed action"
  | true, acc, '\x7d' :: '\x7d' :: rest =>
    match fieldNode acc with
    | none => .error "unexpected action"
    | some n =>
      match parseNodes false [] rest with
      | .ok ns => .ok (n :: ns)
      | .error e => .error e
  | true, acc, c :: rest => parseNodes true (c :: acc) rest

/-- `template.New(name).Parse(text)`. -/
def Template.Parse (name : String) (text : String) : Except String Template :=
  match parseNodes false [] text.data with
  | .ok ns => .ok { Name := name, Nodes := ns }
  | .error e => .error ("template: " ++ name ++ ": " ++ e)

/-- The replacement of a character in `htmlReplacementTable`, empty when the
character is written as it is. -/
def htmlReplacementTable (c : Char) : String :=
  if c = Char.ofNat 0 then "\uFFFD"
  else if c = Char.ofNat 34 then "&#34;"
  else if c = '&' then "&amp;"
  else if c = Char.ofNat 39 then "&#39;"
  else if c = '+' then "&#43;"
  else if c = '<' then "&lt;"
  else if c = '>' then "&gt;"
  else ""

/-- `htmlReplacer(s, htmlReplacementTable, true)`: every character with a replacement
is replaced, every other one is kept.  This is the escaper html/template puts on an
action in element text and on one in a quoted attribute value that is neither a URL,
a style nor a script. -/
def htmlReplacer (s : String) : String :=
  String.mk (s.data.flatMap fun c =>
    if htmlReplacementTable c = "" then [c] else (htmlReplacementTable c).data)

/-! ## net/http -/

/-- `http.StatusTemporaryRedirect`. -/
def StatusTemporaryRedirect : Nat := 307

/-- `http.StatusInternalServerError`. -/
def StatusInternalServerError : Nat := 500

/-- `http.StatusOK`. -/
def StatusOK : Nat := 200

/-- The part of `*http.Request` the handler reads: the host, and the parsed form
(query and body parameters), each key with its values in order. -/
structure Request where
  Host : String
  Form : List (String × List String)
  deriving DecidableEq, Repr

/-- `Request.FormValue`: the first value of the key, empty when the key is absent. -/
def Request.FormValue (r : Request) (key : String) : String :=
  match r.Form.lookup key with
  | some (v :: _) => v
  | _ => ""

/-- A call the handler makes on its `http.ResponseWriter`. -/
inductive Call where
  | Redirect (url : String) (code : Nat)
  | Write (p : String)
  | HeaderSet (key : String) (value : String)
  deriving DecidableEq, Repr

/-- The response writer, as the calls it has received, oldest first. -/
structure ResponseWriter where
  calls : List Call
  deriving DecidableEq, Repr

/-- `http.Redirect(w, r, url, code)`. -/
def ResponseWriter.Redirect (w : ResponseWriter) (url : String) (code : Nat) : ResponseWriter :=
  { calls := w.calls ++ [Call.Redirect url code] }

/-- `w.Write(p)`. -/
def ResponseWriter.Write (w : ResponseWriter) (p : String) : ResponseWriter :=
  { calls := w.calls ++ [Call.Write p] }

/-- `w.Header().Set(key, value)`. -/
def ResponseWriter.HeaderSet (w : ResponseWriter) (key value : String) : ResponseWriter :=
  { calls := w.calls ++ [Call.HeaderSet key value] }

/-- The body bytes a sequence of calls writes through `Write`. -/
def bodyOf : List Call → String
  | [] => ""
  | Call.Write p :: cs => p ++ bodyOf cs
  | _ :: cs => bodyOf cs

/-! ### Content-type sniffing (`http.DetectContentType`)

Go strings are byte strings, and the sniffer works on bytes: a byte is a `Nat` below
256, and a string is sniffed through its UTF-8 encoding. -/

/-- The UTF-8 encoding of a character. -/
def utf8Bytes (c : Char) : List Nat :=
  let n := c.toNat
  if n < 0x80 then [n]
  else if n < 0x800 then [0xC0 + n / 64, 0x80 + n % 64]
  else if n < 0x10000 then [0xE0 + n / 4096, 0x80 + n / 64 % 64, 0x80 + n % 64]
  else [0xF0 + n / 262144, 0x80 + n / 4096 % 64, 0x80 + n / 64 % 64, 0x80 + n % 64]

/-- The bytes of a string (`[]byte(s)`). -/
def bytesOf (s : String) : List Nat :=
  s.data.flatMap utf8Bytes

/-- `isWS`: the byte is a whitespace byte: tab, line feed, form feed, carriage return
or space. -/
def isWS (b : Nat) : Bool :=
  b = 9 || b = 10 || b = 12 || b = 13 || b = 32

/-- `isTT`: the byte ends a tag: a space or a closing angle bracket. -/
def isTT (b : Nat) : Bool :=
  b = 32 || b = 62

/-- A signature of the sniffing table (`sniffSig`). -/
inductive SniffSig where
  | html (pat : List Nat)
  | masked (mask pat : List Nat) (skipWS : Bool) (ct : String)
  | exact (sig : List Nat) (ct : String)
  | mp4
  | text
  deriving DecidableEq, Repr

/-- The loop of `htmlSig.match` over the pattern: a data byte is compared as it is with
a pattern byte that is no capital letter, and with its bit `0x20` cleared otherwise. -/
def htmlSigBytes : List Nat → List Nat → Bool
  | [], _ => true
  | _ :: _, [] => false
  | b :: pat, db :: data =>
    let db1 := if 65 ≤ b ∧ b ≤ 90 then Nat.land db 0xDF else db
    if b ≠ db1 then false else htmlSigBytes pat data

/-- The loop of `maskedSig.match` over the pattern: the masked data byte is the pattern
byte. -/
def maskedSigBytes : List Nat → List Nat → List Nat → Bool
  | [], _, _ => true
  | pb :: pat, mb :: mask, db :: data =>
    if Nat.land db mb ≠ pb then false else maskedSigBytes pat mask data
  | _ :: _, _, _ => false

/-- A byte that makes data binary for `textSig.match`. -/
def isBinaryByte (b : Nat) : Bool :=
  b ≤ 0x08 || b = 0x0B || (0x0E ≤ b && b ≤ 0x1A) || (0x1C ≤ b && b ≤ 0x1F)

/-- The big-endian number of the first four bytes (`binary.BigEndian.Uint32`). -/
def bigEndianUint32 (data : List Nat) : Nat :=
  data.getD 0 0 * 16777216 + data.getD 1 0 * 65536 + data.getD 2 0 * 256 + data.getD 3 0

/-- `mp4Sig.match`: a first box of type `ftyp` one of whose brands, the minor version
apart, starts with `mp4`. -/
def mp4Match (data : List Nat) : String :=
  if data.length < 12 then ""
  else
    let boxSize := bigEndianUint32 data
    if data.length < boxSize ∨ boxSize % 4 ≠ 0 then ""
    else if (data.drop 4).take 4 ≠ bytesOf "ftyp" then ""
    else if (List.range (boxSize / 4)).any (fun k =>
        decide (8 ≤ 4 * k ∧ 4 * k ≠ 12 ∧ (data.drop (4 * k)).take 3 = bytesOf "mp4")) then
      "video/mp4"
    else ""

/-- The `match` method of a signature: the content type when the data matches, the empty
string otherwise. -/
def SniffSig.matchData (sig : SniffSig) (data : List Nat) (firstNonWS : Nat) : String :=
  match sig with
  | SniffSig.html pat =>
    let data1 := data.drop firstNonWS
    if data1.length < pat.length + 1 then ""
    else if !htmlSigBytes pat data1 then ""
    else if !isTT (data1.getD pat.length 0) then ""
    else "text/html; charset=utf-8"
  | SniffSig.masked mask pat skipWS ct =>
    let data1 := if skipWS then data.drop firstNonWS else data
    if pat.length ≠ mask.length then ""
    else if data1.length < pat.length then ""
    else if !maskedSigBytes pat mask data1 then ""
    else ct
  | SniffSig.exact sig ct =>
    if sig.isPrefixOf data then ct else ""
  | SniffSig.mp4 => mp4Match data
  | SniffSig.text =>
    if (data.drop firstNonWS).any isBinaryByte then "" else "text/plain; charset=utf-8"

/-- The table `sniffSignatures`, in its order. -/
def sniffSignatures : List SniffSig :=
  [SniffSig.html (bytesOf "<!DOCTYPE HTML"),
   SniffSig.html (bytesOf "<HTML"),
   SniffSig.html (bytesOf "<HEAD"),
   SniffSig.html (bytesOf "<SCRIPT"),
   SniffSig.html (bytesOf "<IFRAME"),
   SniffSig.html (bytesOf "<H1"),
   SniffSig.html (bytesOf "<DIV"),
   SniffSig.html (bytesOf "<FONT"),
   SniffSig.html (bytesOf "<TABLE"),
   SniffSig.html (bytesOf "<A"),
   SniffSig.html (bytesOf "<STYLE"),
   SniffSig.html (bytesOf "<TITLE"),
   SniffSig.html (bytesOf "<B"),
   SniffSig.html (bytesOf "<BODY"),
   SniffSig.html (bytesOf "<BR"),
   SniffSig.html (bytesOf "<P"),
   SniffSig.html (bytesOf "<!--"),
   SniffSig.masked [0xFF, 0xFF, 0xFF, 0xFF, 0xFF] (bytesOf "<?xml") true
     "text/xml; charset=utf-8",
   SniffSig.exact (bytesOf "%PDF-") "application/pdf",
   SniffSig.exact (bytesOf "%!PS-Adobe-") "application/postscript",
   SniffSig.masked [0xFF, 0xFF, 0x00, 0x00] [0xFE, 0xFF, 0x00, 0x00] false
     "text/plain; charset=utf-16be",
   SniffSig.masked [0xFF, 0xFF, 0x00, 0x00] [0xFF, 0xFE, 0x00, 0x00] false
     "text/plain; charset=utf-16le",
   SniffSig.masked [0xFF, 0xFF, 0xFF, 0x00] [0xEF, 0xBB, 0xBF, 0x00] false
     "text/plain; charset=utf-8",
   SniffSig.exact [0x00, 0x00, 0x01, 0x00] "image/x-icon",
   SniffSig.exact [0x00, 0x00, 0x02, 0x00] "image/x-icon",
   SniffSig.exact (bytesOf "BM") "image/bmp",
   SniffSig.exact (bytesOf "GIF87a") "image/gif",
   SniffSig.exact (bytesOf "GIF89a") "image/gif",
   SniffSig.exact [0x89, 0x50, 0x4E, 0x47, 0x0D, 0x0A, 0x1A, 0x0A] "image/png",
   SniffSig.exact [0xFF, 0xD8, 0xFF] "image/jpeg",
   SniffSig.masked
     [0xFF, 0xFF, 0xFF, 0xFF, 0x00, 0x00, 0x00, 0x00, 0xFF, 0xFF, 0xFF, 0xFF, 0xFF, 0xFF]
     (bytesOf "RIFF" ++ [0, 0, 0, 0] ++ bytesOf "WEBPVP") false "image/webp",
   SniffSig.masked [0xFF, 0xFF, 0xFF, 0xFF] (bytesOf ".snd") false "audio/basic",
   SniffSig.masked
     [0xFF, 0xFF, 0xFF, 0xFF, 0x00, 0x00, 0x00, 0x00, 0xFF, 0xFF, 0xFF, 0xFF]
     (bytesOf "FORM" ++ [0, 0, 0, 0] ++ bytesOf "AIFF") false "audio/aiff",
   SniffSig.masked [0xFF, 0xFF, 0xFF] (bytesOf "ID3") false "audio/mpeg",
   SniffSig.masked [0xFF, 0xFF, 0xFF, 0xFF, 0xFF] (bytesOf "OggS" ++ [0]) false
     "application/ogg",
   SniffSig.masked [0xFF, 0xFF, 0xFF, 0xFF, 0xFF, 0xFF, 0xFF, 0xFF]
     (bytesOf "MThd" ++ [0, 0, 0, 6]) false "audio/midi",
   SniffSig.masked
     [0xFF, 0xFF, 0xFF, 0xFF, 0x00, 0x00, 0x00, 0x00, 0xFF, 0xFF, 0xFF, 0xFF]
     (bytesOf "RIFF" ++ [0, 0, 0, 0] ++ bytesOf "AVI ") false "video/avi",
   SniffSig.masked
     [0xFF, 0xFF, 0xFF, 0xFF, 0x00, 0x00, 0x00, 0x00, 0xFF, 0xFF, 0xFF, 0xFF]
     (bytesOf "RIFF" ++ [0, 0, 0, 0] ++ bytesOf "WAVE") false "audio/wave",
   SniffSig.mp4,
   SniffSig.exact [0x1A, 0x45, 0xDF, 0xA3] "video/webm",
   SniffSig.masked (List.replicate 34 0 ++ [0xFF, 0xFF]) (List.replicate 34 0 ++ bytesOf "LP")
     false "application/vnd.ms-fontobject",
   SniffSig.exact [0x00, 0x01, 0x00, 0x00] "font/ttf",
   SniffSig.exact (bytesOf "OTTO") "font/otf",
   SniffSig.exact (bytesOf "ttcf") "font/collection",
   SniffSig.exact (bytesOf "wOFF") "font/woff",
   SniffSig.exact (bytesOf "wOF2") "font/woff2",
   SniffSig.exact [0x1F, 0x8B, 0x08] "application/x-gzip",
   SniffSig.exact (bytesOf "PK" ++ [0x03, 0x04]) "application/zip",
   SniffSig.exact (bytesOf "Rar!" ++ [0x1A, 0x07, 0x00]) "application/x-rar-compressed",
   SniffSig.exact (bytesOf "Rar!" ++ [0x1A, 0x07, 0x01, 0x00]) "application/x-rar-compressed",
   SniffSig.exact [0x00, 0x61, 0x73, 0x6D] "application/wasm",
   SniffSig.text]

/-- The number of bytes the sniffer looks at (`sniffLen`). -/
def sniffLen : Nat := 512

/-- The first signature of the list that matches, `application/octet-stream` when none
does. -/
def firstMatch (data : List Nat) (firstNonWS : Nat) : List SniffSig → String
  | [] => "application/octet-stream"
  | sig :: sigs =>
    let ct := sig.matchData data firstNonWS
    if ct ≠ "" then ct else firstMatch data firstNonWS sigs

/-- `http.DetectContentType`: the content type of the first signature that matches the
first 512 bytes. -/
def DetectContentType (data : List Nat) : String :=
  let data1 := data.take sniffLen
  let firstNonWS := (data1.takeWhile isWS).length
  firstMatch data1 firstNonWS sniffSignatures

/-! ### The response of the server -/

/-- The response as `net/http` builds it from the calls of a handler: the header map of
the handler, the status and the headers that were sent, and the body. -/
structure Response where
  header : List (String × String)
  wroteHeader : Bool
  status : Nat
  sent : List (String × String)
  body : String
  deriving DecidableEq, Repr

/-- The response before any call. -/
def Response.empty : Response :=
  { header := [], wroteHeader := false, status := 0, sent := [], body := "" }

/-- `Header.Set` on the header map of the handler. -/
def headerSet (h : List (String × String)) (key value : String) : List (String × String) :=
  h.filter (fun kv => kv.1 ≠ key) ++ [(key, value)]

/-- `Header.Get`: the value of a key, empty when the key is absent. -/
def headerGet (h : List (String × String)) (key : String) : String :=
  (h.lookup key).getD ""

/-- `ResponseWriter.WriteHeader`: the first call fixes the status and the headers that
are sent; the header map may still be changed afterwards, without effect on them. -/
def Response.WriteHeader (r : Response) (code : Nat) : Response :=
  if r.wroteHeader then r
  else { r with wroteHeader := true, status := code, sent := r.header }

/-- The effect of one call, by the contract of `http.ResponseWriter`: a `Write` before
any `WriteHeader` fixes the headers with status 200 first.  Of `http.Redirect` only the
`WriteHeader(code)` it ends with is kept: the `Location` header, which the library
computes from the url and the request, and the short body are left out. -/
def Response.step (r : Response) : Call → Response
  | Call.HeaderSet k v => { r with header := headerSet r.header k v }
  | Call.Write p =>
    let r1 := r.WriteHeader StatusOK
    { r1 with body := r1.body ++ p }
  | Call.Redirect _ code =>
    r.WriteHeader code

/-- `bodyAllowedForStatus`: every status but 1xx, 204 and 304 has a body. -/
def bodyAllowedForStatus (status : Nat) : Bool :=
  !((100 ≤ status && status ≤ 199) || status = 204 || status = 304)

/-- What the server does when it sends the headers, which it does with the first part
of the body it flushes, at the latest when the handler has returned (the handler never
flushes, so that part starts with the first 512 bytes of the body): headers that were
not fixed yet are fixed with status 200; and when the fixed headers have no
`Content-Type`, no content or transfer encoding, and there is a body, the server adds the
`Content-Type` it sniffs from the body. -/
def Response.finish (r : Response) : Response :=
  let r1 := r.WriteHeader StatusOK
  if bodyAllowedForStatus r1.status ∧ (r1.sent.lookup "Content-Type").isNone ∧
      headerGet r1.sent "Content-Encoding" = "" ∧
      headerGet r1.sent "Transfer-Encoding" = "" ∧ r1.body ≠ "" then
    { r1 with sent := r1.sent ++ [("Content-Type", DetectContentType (bytesOf r1.body))] }
  else r1

/-- The response a sequence of calls of a handler produces, once the handler has
returned. -/
def Response.replay (cs : List Call) : Response :=
  (cs.foldl Response.step Response.empty).finish

/-- The data the handler passes to its template. -/
structure TemplateData where
  Host : String
  Path : String
  Vcs : String
  URI : String
  deriving DecidableEq, Repr

/-- The value of a field of the data, `none` when the data has no such field. -/
def TemplateData.field (d : TemplateData) (name : String) : Option String :=
  if name = "Host" then some d.Host
  else if name = "Path" then some d.Path
  else if name = "Vcs" then some d.Vcs
  else if name = "URI" then some d.URI
  else none

/-- The error of an execution that asks for a field the data does not have. -/
inductive ExecError where
  | cantEvaluateField (name : String)
  deriving DecidableEq, Repr

/-- The walk of `Template.Execute` over the nodes: a text is written as it is, a field
is escaped and written, and a field the data does not have stops the execution with
what was written so far. -/
def execNodes : List Node → TemplateData → ResponseWriter → ResponseWriter × Option ExecError
  | [], _, w => (w, none)
  | Node.Text s :: ns, d, w => execNodes ns d (w.Write s)
  | Node.Field f :: ns, d, w =>
    match d.field f with
    | none => (w, some (ExecError.cantEvaluateField f))
    | some v => execNodes ns d (w.Write (htmlReplacer v))

/-- `Template.Execute(w, data)`. -/
def Template.Execute (t : Template) (w : ResponseWriter) (d : TemplateData) :
    ResponseWriter × Option ExecError :=
  execNodes t.Nodes d w

/-! ## gopkg.go -/

/-- The default HTML template used as a response. -/
def DefaultTemplate : String :=
  "<html>\n<head>\n<meta name=\"go-import\" content=\"\x7b\x7b.Host\x7d\x7d\x7b\x7b.Path\x7d\x7d \x7b\x7b.Vcs\x7d\x7d \x7b\x7b.URI\x7d\x7d\">\n</head>\n<body>\ngo get \x7b\x7b.Host\x7d\x7d\x7b\x7b.Path\x7d\x7d\n</body>\n</html>\n"

/-- The GoPkg Caddy module; a `nil` template is `none`. -/
structure Module where
  Path : String
  Vcs : String
  URI : String
  Template : Option Template
  deriving DecidableEq, Repr

/-- The module `new(Module)` makes: every field zero. -/
def Module.new : Module :=
  { Path := "", Vcs := "", URI := "", Template := none }

/-- The loop `for d.Next() { ... }` of `UnmarshalCaddyfile`, with a bound on the number
of rounds; `none` when the bound is used up. -/
def Module.unmarshalLoop : Nat → Module → Dispenser → Option (Module × Dispenser × Option ParseError)
  | 0, _, _ => none
  | fuel + 1, m, d =>
    let (d1, more) := d.Next
    if !more then some (m, d1, none)
    else
      let (d2, path, ok) := d1.Args m.Path
      let m1 := { m with Path := path }
      if !ok then some (m1, d2, some d2.ArgErr)
      else
        match d2.RemainingArgs with
        | none => none
        | some (d3, args) =>
          match args.length with
          | 2 =>
            let (d4, vcs, _) := d3.Args m1.Vcs
            let m2 := { m1 with Vcs := vcs }
            let (d5, uri, _) := d4.Args m2.URI
            Module.unmarshalLoop fuel { m2 with URI := uri } d5
          | 1 =>
            let (d4, uri, _) := d3.Args m1.URI
            Module.unmarshalLoop fuel { m1 with URI := uri } d4
          | _ => some (m1, d3, some d3.ArgErr)

/-- `Module.UnmarshalCaddyfile`, syntax `gopkg <path> [<vcs>] <uri>`: the module and
the dispenser after the call, and the error returned.  Every round moves the cursor
on, so one round per token and one more to leave the loop is enough. -/
def Module.UnmarshalCaddyfile (m : Module) (d : Dispenser) :
    Option (Module × Dispenser × Option ParseError) :=
  Module.unmarshalLoop (d.tokens.length + 1) m d

/-- The JSON document `Helper.JSON` makes of a string. -/
inductive JSONValue where
  | str (s : String)
  deriving DecidableEq, Repr

/-- `Helper.JSON` on a string. -/
def Helper.JSON (s : String) : JSONValue := JSONValue.str s

/-- A route of the host: its matcher sets and its handlers. -/
structure Route where
  MatcherSets : List (List (String × JSONValue))
  Handlers : List Module
  deriving DecidableEq, Repr

/-- A configuration value handed back to the host. -/
structure ConfigValue where
  Class : String
  Value : Route
  deriving DecidableEq, Repr

/-- `Helper.NewRoute`: one route with the matcher set and the handler. -/
def Helper.NewRoute (matcher : List (String × JSONValue)) (handler : Module) : List ConfigValue :=
  [{ Class := "route", Value := { MatcherSets := [matcher], Handlers := [handler] } }]

/-- `parseCaddyFile`: parses the gopkg directive; the helper is its dispenser.  The
result is `none` only when a loop bound is used up. -/
def parseCaddyFile (h : Dispenser) : Option (Except ParseError (List ConfigValue)) :=
  let (h1, ok) := h.Next
  if !ok then some (.error h1.ArgErr)
  else
    match Module.UnmarshalCaddyfile Module.new h1 with
    | none => none
    | some (_, _, some err) => some (.error err)
    | some (m, _, none) =>
      let matcher := [("path", Helper.JSON m.Path)]
      some (.ok (Helper.NewRoute matcher m))

/-- `Module.Provision`: the module after the call and the error returned. -/
def Module.Provision (m : Module) : Module × Option String :=
  let m1 := if m.Vcs = "" then { m with Vcs := "git" } else m
  match m1.Template with
  | some _ => (m1, none)
  | none =>
    match Template.Parse "Package" DefaultTemplate with
    | .error err => (m1, some ("parsing default gopkg template: " ++ err))
    | .ok tpl => ({ m1 with Template := some tpl }, none)

/-- The error `caddyhttp.Error(statusCode, err)` makes (its random id and its trace of
the caller are left out). -/
structure HandlerError where
  StatusCode : Nat
  Err : ExecError
  deriving DecidableEq, Repr

/-- `caddyhttp.Error`. -/
def caddyhttp.Error (statusCode : Nat) (err : ExecError) : HandlerError :=
  { StatusCode := statusCode, Err := err }

/-- `Module.ServeHTTP`: the response writer after the call and the error returned.
The result is `none` when the template is `nil`, where Go panics. -/
def Module.ServeHTTP (m : Module) (w : ResponseWriter) (r : Request) :
    Option (ResponseWriter × Option HandlerError) :=
  if r.FormValue "go-get" ≠ "1" then
    some (w.Redirect m.URI StatusTemporaryRedirect, none)
  else
    match m.Template with
    | none => none
    | some t =>
      let (w1, err) := t.Execute w
        { Host := r.Host, Path := m.Path, Vcs := m.Vcs, URI := m.URI }
      match err with
      | some e => some (w1, some (caddyhttp.Error StatusInternalServerError e))
      | none => some (w1.HeaderSet "Content-Type" "text/html", none)

/-! ## Predicates of the statements -/

/-- Every token stands on the line of the token before it. -/
def sameLineAll : List Token → Bool
  | a :: b :: rest => decide (Token.sameLine a b) && sameLineAll (b :: rest)
  | _ => true

/-- A directive line: the tokens stand on one line of one file, and no token after the
directive name opens a block, so that every token after the name is an argument. -/
def OneLine (toks : List Token) : Prop :=
  sameLineAll toks = true ∧ ∀ t ∈ toks.tail, t.Text ≠ "\x7b"

instance (toks : List Token) : Decidable (OneLine toks) :=
  inferInstanceAs (Decidable (sameLineAll toks = true ∧ ∀ t ∈ toks.tail, t.Text ≠ "\x7b"))

/-- A value free of HTML-special characters: no character of it has a replacement in
`htmlReplacementTable`. -/
def htmlSafe (s : String) : Prop :=
  ∀ c ∈ s.data, htmlReplacementTable c = ""

instance (s : String) : Decidable (htmlSafe s) :=
  inferInstanceAs (Decidable (∀ c ∈ s.data, htmlReplacementTable c = ""))

/-- The string `s` contains `sub`. -/
def Contains (s sub : String) : Prop :=
  ∃ pre post : String, s = pre ++ sub ++ post

/-- The `go-import` meta element of the response document. -/
def goImportMeta (host path vcs uri : String) : String :=
  "<meta name=\"go-import\" content=\"" ++ host ++ path ++ " " ++ vcs ++ " " ++ uri ++ "\">"

/-- The fallback line of the response document. -/
def goGetLine (host path : String) : String :=
  "go get " ++ host ++ path

/-- The nodes of `DefaultTemplate`. -/
def defaultNodes : List Node :=
  [Node.Text "<html>\n<head>\n<meta name=\"go-import\" content=\"",
   Node.Field "Host", Node.Field "Path", Node.Text " ", Node.Field "Vcs", Node.Text " ",
   Node.Field "URI", Node.Text "\">\n</head>\n<body>\ngo get ",
   Node.Field "Host", Node.Field "Path", Node.Text "\n</body>\n</html>\n"]

/-- The tokens of the words of one line, as the lexer makes them for words without a
line break: all in file `Caddyfile` on line 1. -/
def lineTokens (words : List String) : List Token :=
  words.map fun w => { File := "Caddyfile", Line := 1, Text := w }

/-- The module of the example: path `/foo`, vcs `git`, URI `https://example.com/foo`,
before `Provision`. -/
def fooModule : Module :=
  { Path := "/foo", Vcs := "git", URI := "https://example.com/foo", Template := none }

/-- A request of the `go` tool to host `example.com`: `go-get=1`. -/
def goGetRequest : Request :=
  { Host := "example.com", Form := [("go-get", ["1"])] }

/-- A template whose output is plain text: only the fallback line. -/
def plainTemplate : Template :=
  { Name := "Package", Nodes := [Node.Text "go get ", Node.Field "Host", Node.Field "Path",
      Node.Text "\n"] }

/-- A template that asks for a field the handler does not pass. -/
def repoTemplate : Template :=
  { Name := "Package", Nodes := [Node.Text "go get ", Node.Field "Repo"] }

/-! ## The dispenser on a directive line -/

theorem tokenAt_natCast (toks : List Token) (c : Int) (k : Nat) (h : k < toks.length) :
    (Dispenser.mk toks c).tokenAt (k : Int) = toks[k] := by
  simp only [Dispenser.tokenAt, Int.toNat_ofNat]
  exact List.getD_eq_getElem _ _ h

theorem val_natCast (toks : List Token) (k : Nat) (h : k < toks.length) :
    (Dispenser.mk toks (k : Int)).Val = toks[k].Text := by
  have h1 : ¬ ((k : Int) < 0 ∨ (k : Int) ≥ (toks.length : Int)) := by omega
  simp only [Dispenser.Val, h1, if_false]
  rw [tokenAt_natCast toks _ k h]

theorem sameLineAll_chain : ∀ toks : List Token, sameLineAll toks = true →
    List.Chain' Token.sameLine toks
  | [], _ => List.chain'_nil
  | [a], _ => List.chain'_singleton a
  | a :: b :: rest, h => by
    simp only [sameLineAll, Bool.and_eq_true, decide_eq_true_eq] at h
    exact List.chain'_cons.mpr ⟨h.1, sameLineAll_chain (b :: rest) h.2⟩

theorem oneLine_sameLine {toks : List Token} (hl : OneLine toks) (k : Nat)
    (hk : k < toks.length) (h : k + 1 < toks.length) :
    Token.sameLine toks[k] toks[k + 1] := by
  have hc := List.chain'_iff_get.mp (sameLineAll_chain toks hl.1) k (by omega)
  simpa using hc

theorem oneLine_noBrace {toks : List Token} (hl : OneLine toks) (k : Nat)
    (h : k + 1 < toks.length) : toks[k + 1].Text ≠ "\x7b" := by
  cases toks with
  | nil => simp at h
  | cons a rest =>
    apply hl.2
    simp only [List.tail_cons, List.getElem_cons_succ]
    exact List.getElem_mem _

theorem nextArg_step {toks : List Token} (hl : OneLine toks) (k : Nat)
    (h : k + 1 < toks.length) :
    (Dispenser.mk toks (k : Int)).NextArg = (Dispenser.mk toks ((k + 1 : Nat) : Int), true) := by
  have hs := oneLine_sameLine hl k (by omega) h
  have hb := oneLine_noBrace hl k h
  have h0 : ¬ ((k : Int) < 0) := by omega
  have h1 : ¬ ((k : Int) ≥ (toks.length : Int)) := by omega
  have h2 : (k : Int) < (toks.length : Int) - 1 := by omega
  have hcast : (k : Int) + 1 = ((k + 1 : Nat) : Int) := by push_cast; rfl
  have hnext : (Dispenser.mk toks (k : Int)).nextOnSameLine
      = (Dispenser.mk toks ((k + 1 : Nat) : Int), true) := by
    simp only [Dispenser.nextOnSameLine, h0, h1, if_false]
    rw [hcast, tokenAt_natCast toks _ k (by omega), tokenAt_natCast toks _ (k + 1) h]
    simp [h2, hs]
  simp only [Dispenser.NextArg, hnext]
  rw [val_natCast toks (k + 1) h]
  simp [hb]

theorem nextArg_last (toks : List Token) (k : Nat) (h : k + 1 = toks.length) :
    (Dispenser.mk toks (k : Int)).NextArg = (Dispenser.mk toks (k : Int), false) := by
  have h0 : ¬ ((k : Int) < 0) := by omega
  have h1 : ¬ ((k : Int) ≥ (toks.length : Int)) := by omega
  have h2 : ¬ ((k : Int) < (toks.length : Int) - 1) := by omega
  simp [Dispenser.NextArg, Dispenser.nextOnSameLine, h0, h1, h2]

theorem args_step {toks : List Token} (hl : OneLine toks) (k : Nat)
    (h : k + 1 < toks.length) (target : String) :
    (Dispenser.mk toks (k : Int)).Args target
      = (Dispenser.mk toks ((k + 1 : Nat) : Int), toks[k + 1].Text, true) := by
  simp only [Dispenser.Args, nextArg_step hl k h]
  rw [val_natCast toks (k + 1) h]
  rfl

theorem args_last (toks : List Token) (k : Nat) (h : k + 1 = toks.length) (target : String) :
    (Dispenser.mk toks (k : Int)).Args target = (Dispenser.mk toks (k : Int), target, false) := by
  simp [Dispenser.Args, nextArg_last toks k h]

theorem remainingArgsLoop_line {toks : List Token} (hl : OneLine toks) :
    ∀ (n k fuel : Nat) (acc : List String), k + n + 1 = toks.length → n < fuel →
      Dispenser.remainingArgsLoop fuel (Dispenser.mk toks (k : Int)) acc
        = some (Dispenser.mk toks ((k + n : Nat) : Int),
            acc ++ (toks.drop (k + 1)).map Token.Text) := by
  intro n
  induction n with
  | zero =>
    intro k fuel acc hk hf
    obtain ⟨f, rfl⟩ : ∃ f, fuel = f + 1 := ⟨fuel - 1, by omega⟩
    have hd : toks.drop (k + 1) = [] := List.drop_eq_nil_of_le (by omega)
    simp [Dispenser.remainingArgsLoop, nextArg_last toks k (by omega), hd]
  | succ n ih =>
    intro k fuel acc hk hf
    obtain ⟨f, rfl⟩ : ∃ f, fuel = f + 1 := ⟨fuel - 1, by omega⟩
    have hlt : k + 1 < toks.length := by omega
    have hd : toks.drop (k + 1) = toks[k + 1] :: toks.drop (k + 1 + 1) :=
      List.drop_eq_getElem_cons hlt
    simp only [Dispenser.remainingArgsLoop, nextArg_step hl k hlt, if_true]
    rw [ih (k + 1) f _ (by omega) (by omega), val_natCast toks (k + 1) hlt, hd]
    have hkn : k + 1 + n = k + (n + 1) := by omega
    simp only [hkn, List.map_cons, List.append_assoc, List.singleton_append]

theorem remainingArgs_line {toks : List Token} (hl : OneLine toks) (k : Nat)
    (h : k < toks.length) :
    (Dispenser.mk toks (k : Int)).RemainingArgs
      = some (Dispenser.mk toks ((toks.length - 1 : Nat) : Int),
          (toks.drop (k + 1)).map Token.Text) := by
  have := remainingArgsLoop_line hl (toks.length - 1 - k) k (toks.length + 2) []
    (by omega) (by omega)
  have hk : k + (toks.length - 1 - k) = toks.length - 1 := by omega
  simpa [Dispenser.RemainingArgs, hk] using this

theorem next_fresh (name : Token) (rest : List Token) :
    (NewDispenser (name :: rest)).Next = (Dispenser.mk (name :: rest) ((0 : Nat) : Int), true) := by
  simp only [NewDispenser, Dispenser.Next, List.length_cons]
  rw [if_pos (by omega)]
  rfl

theorem next_last (toks : List Token) (k : Nat) (h : k + 1 = toks.length) :
    (Dispenser.mk toks (k : Int)).Next = (Dispenser.mk toks (k : Int), false) := by
  have h2 : ¬ ((k : Int) < (toks.length : Int) - 1) := by omega
  simp [Dispenser.Next, h2]

/-! ## UnmarshalCaddyfile on a directive line -/

theorem unmarshalLoop_succ (fuel : Nat) (m : Module) (d : Dispenser) :
    Module.unmarshalLoop (fuel + 1) m d =
      if !d.Next.2 then some (m, d.Next.1, none)
      else if !(d.Next.1.Args m.Path).2.2 then
        some ({ m with Path := (d.Next.1.Args m.Path).2.1 }, (d.Next.1.Args m.Path).1,
          some (d.Next.1.Args m.Path).1.ArgErr)
      else
        match (d.Next.1.Args m.Path).1.RemainingArgs with
        | none => none
        | some (d3, args) =>
          let m1 : Module := { m with Path := (d.Next.1.Args m.Path).2.1 }
          match args.length with
          | 2 =>
            Module.unmarshalLoop fuel
              { m1 with Vcs := (d3.Args m1.Vcs).2.1,
                        URI := ((d3.Args m1.Vcs).1.Args m1.URI).2.1 }
              ((d3.Args m1.Vcs).1.Args m1.URI).1
          | 1 => Module.unmarshalLoop fuel { m1 with URI := (d3.Args m1.URI).2.1 } (d3.Args m1.URI).1
          | _ => some (m1, d3, some d3.ArgErr) := by
  rfl

/-- On a line that is only the directive name, the path is missing: an argument error. -/
theorem unmarshal_noPath (m : Module) (name : Token) :
    Module.UnmarshalCaddyfile m (NewDispenser [name])
      = some (m, Dispenser.mk [name] ((0 : Nat) : Int),
          some (Dispenser.mk [name] ((0 : Nat) : Int)).ArgErr) := by
  show Module.unmarshalLoop (0 + 1 + 1) m (NewDispenser [name]) = _
  rw [unmarshalLoop_succ, next_fresh]
  simp only [Bool.not_true, Bool.false_eq_true, if_false]
  rw [args_last [name] 0 rfl]
  simp

/-- On a line with a path and further arguments, the path is stored and the arguments
are all loaded by `RemainingArgs`; with one or two of them nothing more is stored and
the call succeeds, with any other number it ends in an argument error. -/
theorem unmarshal_line (m : Module) (name path : Token) (args : List Token)
    (hl : OneLine (name :: path :: args)) :
    Module.UnmarshalCaddyfile m (NewDispenser (name :: path :: args))
      = some ({ m with Path := path.Text },
          Dispenser.mk (name :: path :: args) ((args.length + 1 : Nat) : Int),
          if args.length = 1 ∨ args.length = 2 then none
          else some (Dispenser.mk (name :: path :: args) ((args.length + 1 : Nat) : Int)).ArgErr) := by
  have hlen : (name :: path :: args).length = args.length + 2 := by simp
  have hA := args_step hl 0 (by simp) m.Path
  have hR := remainingArgs_line hl 1 (by simp)
  simp only [hlen, Nat.add_sub_cancel, List.drop_succ_cons, List.drop_zero, zero_add,
    List.getElem_cons_succ, List.getElem_cons_zero] at hA hR
  have hR' : (Dispenser.mk (name :: path :: args) ((1 : Nat) : Int)).RemainingArgs
      = some (Dispenser.mk (name :: path :: args) ((args.length + 1 : Nat) : Int),
          args.map Token.Text) := by
    rw [hR]; rfl
  show Module.unmarshalLoop (args.length + 1 + 1 + 1) m (NewDispenser (name :: path :: args)) = _
  rw [unmarshalLoop_succ, next_fresh]
  simp only [Bool.not_true, Bool.false_eq_true, if_false, hA, hR', List.length_map]
  have hlast := args_last (name :: path :: args) (args.length + 1) (by simp)
  have hnext := next_last (name :: path :: args) (args.length + 1) (by simp)
  match args, hlast, hnext with
  | [], _, _ => simp
  | [a], hlast, hnext =>
    simp only [List.length_cons, List.length_nil, zero_add] at hlast hnext ⊢
    rw [hlast, unmarshalLoop_succ, hnext]
    simp
  | [a, b], hlast, hnext =>
    simp only [List.length_cons, List.length_nil, zero_add] at hlast hnext ⊢
    rw [hlast, hlast, unmarshalLoop_succ, hnext]
    simp
  | a :: b :: c :: rest, _, _ => simp

/-! ## The loop bounds are never used up -/

theorem nextOnSameLine_spec (d : Dispenser) :
    d.nextOnSameLine.1.tokens = d.tokens ∧
      (d.nextOnSameLine.2 = false → d.nextOnSameLine.1.cursor = d.cursor) ∧
      (d.nextOnSameLine.2 = true →
        d.nextOnSameLine.1.cursor = d.cursor + 1 ∧
          (d.cursor < 0 ∨ d.cursor < (d.tokens.length : Int) - 1)) := by
  unfold Dispenser.nextOnSameLine
  split_ifs with h0 h1 h2
  · exact ⟨rfl, fun h => by simp at h, fun _ => ⟨rfl, Or.inl h0⟩⟩
  · exact ⟨rfl, fun _ => rfl, fun h => by simp at h⟩
  · exact ⟨rfl, fun h => by simp at h, fun _ => ⟨rfl, Or.inr h2.1⟩⟩
  · exact ⟨rfl, fun _ => rfl, fun h => by simp at h⟩

theorem nextArg_spec (d : Dispenser) :
    d.NextArg.1.tokens = d.tokens ∧ d.cursor ≤ d.NextArg.1.cursor ∧
      (d.NextArg.2 = true →
        d.NextArg.1.cursor = d.cursor + 1 ∧
          (d.cursor < 0 ∨ d.cursor < (d.tokens.length : Int) - 1)) := by
  have hspec := nextOnSameLine_spec d
  unfold Dispenser.NextArg
  generalize d.nextOnSameLine = p at hspec ⊢
  obtain ⟨d1, ok⟩ := p
  obtain ⟨ht, hf, hs⟩ := hspec
  dsimp only at ht hf hs ⊢
  cases ok with
  | false =>
    have := hf rfl
    simp only [Bool.not_false, if_true]
    exact ⟨ht, by omega, fun h => by simp at h⟩
  | true =>
    obtain ⟨hc, hlt⟩ := hs rfl
    simp only [Bool.not_true, Bool.false_eq_true, if_false]
    split_ifs
    · exact ⟨ht, by show d.cursor ≤ d1.cursor - 1; omega, fun h => by simp at h⟩
    · exact ⟨ht, by show d.cursor ≤ d1.cursor; omega, fun _ => ⟨hc, hlt⟩⟩

theorem args_spec (d : Dispenser) (target : String) :
    (d.Args target).1.tokens = d.tokens ∧ d.cursor ≤ (d.Args target).1.cursor := by
  have h := nextArg_spec d
  unfold Dispenser.Args
  cases hok : d.NextArg.2 <;> simp only [hok] <;> exact ⟨h.1, h.2.1⟩

theorem remainingArgsLoop_total : ∀ (fuel : Nat) (d : Dispenser) (acc : List String),
    0 < fuel → - d.cursor < (fuel : Int) →
    (d.tokens.length : Int) - 1 - d.cursor < (fuel : Int) →
    ∃ d1 args, Dispenser.remainingArgsLoop fuel d acc = some (d1, args) ∧
      d1.tokens = d.tokens ∧ d.cursor ≤ d1.cursor := by
  intro fuel
  induction fuel with
  | zero => intro d acc h; omega
  | succ f ih =>
    intro d acc _ h1 h2
    have hs := nextArg_spec d
    unfold Dispenser.remainingArgsLoop
    cases hok : d.NextArg.2 with
    | false => exact ⟨d.NextArg.1, acc, by simp [hok], hs.1, hs.2.1⟩
    | true =>
      obtain ⟨hc, hlt⟩ := hs.2.2 hok
      obtain ⟨d1, args, he, ht, hle⟩ := ih d.NextArg.1 (acc ++ [d.NextArg.1.Val])
        (by push_cast at h1 h2; omega) (by rw [hc]; push_cast at h1; omega)
        (by rw [hs.1, hc]; push_cast at h2; omega)
      exact ⟨d1, args, by simp [hok, he], ht.trans hs.1, by omega⟩

theorem remainingArgs_total (d : Dispenser) (h : -1 ≤ d.cursor) :
    ∃ d1 args, d.RemainingArgs = some (d1, args) ∧ d1.tokens = d.tokens ∧
      d.cursor ≤ d1.cursor := by
  apply remainingArgsLoop_total
  · omega
  · push_cast; omega
  · push_cast; omega

/-- The bound of `UnmarshalCaddyfile` is never used up: from a cursor that is before
the first token or further on, the call returns. -/
theorem unmarshalLoop_total : ∀ (fuel : Nat) (m : Module) (d : Dispenser),
    -1 ≤ d.cursor → 0 < fuel → (d.tokens.length : Int) - 1 - d.cursor < (fuel : Int) →
    ∃ r, Module.unmarshalLoop fuel m d = some r := by
  intro fuel
  induction fuel with
  | zero => intro m d _ h; omega
  | succ f ih =>
    intro m d h1 _ h2
    rw [unmarshalLoop_succ]
    have hN : d.Next.1.tokens = d.tokens ∧
        (d.Next.2 = true → d.Next.1.cursor = d.cursor + 1 ∧
          d.cursor < (d.tokens.length : Int) - 1) := by
      unfold Dispenser.Next
      split_ifs with hlt
      · exact ⟨rfl, fun _ => ⟨rfl, hlt⟩⟩
      · exact ⟨rfl, fun h => by simp at h⟩
    cases hn : d.Next.2 with
    | false => exact ⟨_, rfl⟩
    | true =>
      obtain ⟨hc, hlt⟩ := hN.2 hn
      have hA := args_spec d.Next.1 m.Path
      simp only [Bool.not_true, Bool.false_eq_true, if_false]
      cases ha : (d.Next.1.Args m.Path).2.2 with
      | false => exact ⟨_, rfl⟩
      | true =>
        simp only [Bool.not_true, Bool.false_eq_true, if_false]
        obtain ⟨d3, args, he, ht, hle⟩ :=
          remainingArgs_total (d.Next.1.Args m.Path).1 (by omega)
        rw [he]
        simp only
        have hA1 := fun t => args_spec d3 t
        have hA2 := fun t u => args_spec (d3.Args t).1 u
        have hf : 0 < f := by push_cast at h2; omega
        split
        · have a1 := hA1 m.Vcs
          have a2 := hA2 m.Vcs m.URI
          apply ih
          · omega
          · exact hf
          · rw [a2.1, a1.1, ht, hA.1, hN.1]; push_cast at h2; omega
        · have a1 := hA1 m.URI
          apply ih
          · omega
          · exact hf
          · rw [a1.1, ht, hA.1, hN.1]; push_cast at h2; omega
        · exact ⟨_, rfl⟩

/-- `UnmarshalCaddyfile` returns on every dispenser the host can hand over. -/
theorem unmarshal_total (m : Module) (d : Dispenser) (h : -1 ≤ d.cursor) :
    ∃ r, Module.UnmarshalCaddyfile m d = some r := by
  apply unmarshalLoop_total _ m d h
  · omega
  · push_cast; omega

/-- `parseCaddyFile` returns on every dispenser the host can hand over. -/
theorem parseCaddyFile_total (h : Dispenser) (hc : -1 ≤ h.cursor) :
    ∃ r, parseCaddyFile h = some r := by
  have hN : h.cursor ≤ h.Next.1.cursor := by
    unfold Dispenser.Next
    split_ifs
    · show h.cursor ≤ h.cursor + 1; omega
    · exact le_refl _
  unfold parseCaddyFile
  generalize h.Next = p at hN ⊢
  obtain ⟨h1, ok⟩ := p
  dsimp only at hN ⊢
  cases ok with
  | false => exact ⟨_, rfl⟩
  | true =>
    obtain ⟨⟨m, d, e⟩, hr⟩ := unmarshal_total Module.new h1 (by omega)
    simp only [Bool.not_true, Bool.false_eq_true, if_false, hr]
    cases e with
    | none => exact ⟨_, rfl⟩
    | some err => exact ⟨_, rfl⟩

/-! ## The default template -/

/-- Parsing `DefaultTemplate` succeeds, with these nodes. -/
theorem parse_default :
    Template.Parse "Package" DefaultTemplate = .ok { Name := "Package", Nodes := defaultNodes } := by
  rfl

/-- What `Provision` does, field by field; it never fails. -/
theorem provision_eq (m : Module) :
    m.Provision =
      ({ Path := m.Path, Vcs := if m.Vcs = "" then "git" else m.Vcs, URI := m.URI,
         Template := some (m.Template.getD { Name := "Package", Nodes := defaultNodes }) },
       none) := by
  obtain ⟨p, v, u, t⟩ := m
  simp only [Module.Provision, parse_default]
  by_cases hv : v = "" <;> cases t <;> simp [hv]

theorem htmlReplacer_of_safe (s : String) (h : htmlSafe s) : htmlReplacer s = s := by
  obtain ⟨cs⟩ := s
  simp only [htmlReplacer, htmlSafe] at *
  congr 1
  induction cs with
  | nil => rfl
  | cons c cs ih =>
    have hc : htmlReplacementTable c = "" := h c (by simp)
    have ht := ih (fun x hx => h x (by simp [hx]))
    simp only [List.flatMap_cons, hc, if_true, ht]
    rfl

theorem exec_default (d : TemplateData) (w : ResponseWriter) :
    execNodes defaultNodes d w =
      ({ calls := w.calls ++
          [Call.Write "<html>\n<head>\n<meta name=\"go-import\" content=\"",
           Call.Write (htmlReplacer d.Host), Call.Write (htmlReplacer d.Path), Call.Write " ",
           Call.Write (htmlReplacer d.Vcs), Call.Write " ", Call.Write (htmlReplacer d.URI),
           Call.Write "\">\n</head>\n<body>\ngo get ",
           Call.Write (htmlReplacer d.Host), Call.Write (htmlReplacer d.Path),
           Call.Write "\n</body>\n</html>\n"] }, none) := by
  have hH : d.field "Host" = some d.Host := rfl
  have hP : d.field "Path" = some d.Path := rfl
  have hV : d.field "Vcs" = some d.Vcs := rfl
  have hU : d.field "URI" = some d.URI := rfl
  simp only [defaultNodes, execNodes, hH, hP, hV, hU, ResponseWriter.Write,
    List.append_assoc, List.singleton_append, List.cons_append, List.nil_append]

theorem serve_default (m : Module) (w : ResponseWriter) (r : Request)
    (hm : m.Template = some { Name := "Package", Nodes := defaultNodes })
    (hget : r.FormValue "go-get" = "1") :
    Module.ServeHTTP m w r =
      some ({ calls := w.calls ++
          [Call.Write "<html>\n<head>\n<meta name=\"go-import\" content=\"",
           Call.Write (htmlReplacer r.Host), Call.Write (htmlReplacer m.Path), Call.Write " ",
           Call.Write (htmlReplacer m.Vcs), Call.Write " ", Call.Write (htmlReplacer m.URI),
           Call.Write "\">\n</head>\n<body>\ngo get ",
           Call.Write (htmlReplacer r.Host), Call.Write (htmlReplacer m.Path),
           Call.Write "\n</body>\n</html>\n",
           Call.HeaderSet "Content-Type" "text/html"] }, none) := by
  simp only [Module.ServeHTTP, hget, hm, Template.Execute, exec_default, ne_eq,
    not_true_eq_false, if_false, ResponseWriter.HeaderSet, List.append_assoc,
    List.cons_append, List.nil_append]

set_option maxRecDepth 100000 in
/-- With the default template the body starts with `<html>`, and the server sniffs
`text/html; charset=utf-8` for it: the content type of the response is HTML there,
though not through the header the handler sets. -/
theorem serve_default_sniffed :
    ∃ w1, Module.ServeHTTP fooModule.Provision.1 { calls := [] } goGetRequest
        = some (w1, none) ∧
      (Response.replay w1.calls).sent = [("Content-Type", "text/html; charset=utf-8")] ∧
      (Response.replay w1.calls).header = [("Content-Type", "text/html")] :=
  ⟨_, rfl, by decide, by decide⟩

set_option maxRecDepth 100000 in
/-- A header the handler sets before it writes is sent as it is, without sniffing. -/
theorem replay_header_before_write :
    (Response.replay [Call.HeaderSet "Content-Type" "text/html",
        Call.Write "go get example.com/foo\n"]).sent = [("Content-Type", "text/html")] := by
  decide

/-! ## The claims -/

/-- C1 (defect of the code): on the line `gopkg /foo https://example.com/foo`,
`UnmarshalCaddyfile` on an empty module succeeds and stores the path, but the URI stays
empty: `RemainingArgs` has already loaded the argument when `Args` is asked for it.
`Provision` then sets `Vcs` to `git`. -/
theorem C1_single_argument_uri_not_stored :
    Module.UnmarshalCaddyfile Module.new
        (NewDispenser (lineTokens ["gopkg", "/foo", "https://example.com/foo"]))
      = some ({ Path := "/foo", Vcs := "", URI := "", Template := none },
          { tokens := lineTokens ["gopkg", "/foo", "https://example.com/foo"], cursor := 2 },
          none)
    ∧ (Module.Provision { Path := "/foo", Vcs := "", URI := "", Template := none }).1.Vcs = "git" := by
  constructor <;> rfl

/-- C2 (defect of the code): on the line `gopkg /foo hg https://example.com/foo`,
`UnmarshalCaddyfile` on an empty module succeeds and stores the path, but `Vcs` and
`URI` both stay empty: the two arguments were loaded by `RemainingArgs` before `Args`
is asked for them. -/
theorem C2_two_arguments_not_stored :
    Module.UnmarshalCaddyfile Module.new
        (NewDispenser (lineTokens ["gopkg", "/foo", "hg", "https://example.com/foo"]))
      = some ({ Path := "/foo", Vcs := "", URI := "", Template := none },
          { tokens := lineTokens ["gopkg", "/foo", "hg", "https://example.com/foo"], cursor := 3 },
          none) := by
  rfl

/-- C3: on a directive line `name rest`, where `rest` is the path followed by its
trailing arguments, `UnmarshalCaddyfile` returns the argument error of the dispenser
when `rest` is empty (no path), is the path alone (no trailing argument), or is the
path with more than two trailing arguments. -/
theorem C3_wrong_argument_count (m : Module) (name : Token) (rest : List Token)
    (hline : OneLine (name :: rest)) (hcount : rest.length ≤ 1 ∨ 4 ≤ rest.length) :
    ∃ m1 d1, Module.UnmarshalCaddyfile m (NewDispenser (name :: rest))
      = some (m1, d1, some d1.ArgErr) := by
  match rest, hline, hcount with
  | [], _, _ => exact ⟨_, _, unmarshal_noPath m name⟩
  | path :: args, hline, hcount =>
    have hne : ¬ (args.length = 1 ∨ args.length = 2) := by
      simp only [List.length_cons] at hcount
      omega
    refine ⟨{ m with Path := path.Text },
      Dispenser.mk (name :: path :: args) ((args.length + 1 : Nat) : Int), ?_⟩
    rw [unmarshal_line m name path args hline, if_neg hne]

/-- The claim C3 at the line `gopkg /foo a b c`. -/
theorem C3_wrong_argument_count_witness :
    OneLine (lineTokens ["gopkg", "/foo", "a", "b", "c"]) ∧
    ∃ m1 d1, Module.UnmarshalCaddyfile Module.new
        (NewDispenser (lineTokens ["gopkg", "/foo", "a", "b", "c"]))
      = some (m1, d1, some d1.ArgErr) :=
  ⟨by decide,
    C3_wrong_argument_count Module.new ⟨"Caddyfile", 1, "gopkg"⟩
      (lineTokens ["/foo", "a", "b", "c"]) (by decide) (by decide)⟩

/-- C4: when the `go-get` parameter is absent or its value is not `1`, `ServeHTTP`
makes one call on the response writer, `http.Redirect` to the configured URI with
status 307, writes nothing of the template, and returns no error. -/
theorem C4_redirect_without_go_get (m : Module) (w : ResponseWriter) (r : Request)
    (h : r.Form.lookup "go-get" = none ∨ r.FormValue "go-get" ≠ "1") :
    Module.ServeHTTP m w r
      = some ({ calls := w.calls ++ [Call.Redirect m.URI 307] }, none) := by
  have hne : r.FormValue "go-get" ≠ "1" := by
    rcases h with h | h
    · simp [Request.FormValue, h]
    · exact h
  simp [Module.ServeHTTP, hne, ResponseWriter.Redirect, StatusTemporaryRedirect]

/-- The claim C4 at a request without parameters. -/
theorem C4_redirect_without_go_get_witness :
    Module.ServeHTTP { Path := "/foo", Vcs := "git", URI := "https://example.com/foo", Template := none }
        { calls := [] } { Host := "example.com", Form := [] }
      = some ({ calls := [] ++ [Call.Redirect "https://example.com/foo" 307] }, none) :=
  C4_redirect_without_go_get _ _ _ (Or.inl (by decide))

/-- C7: `Provision` returns no error, and a second call returns no error and leaves the
module (path, vcs, URI and template) as the first call left it. -/
theorem C7_provision_idempotent (m : Module) :
    m.Provision.2 = none ∧ m.Provision.1.Provision = (m.Provision.1, none) := by
  refine ⟨by rw [provision_eq], ?_⟩
  rw [provision_eq m, provision_eq]
  by_cases hv : m.Vcs = "" <;> simp [hv]

/-- C8: `Provision` succeeds; afterwards `Vcs` is `git` if it was empty and its old value
otherwise, the template is the parsed `DefaultTemplate` if there was none and the old
one otherwise, and path and URI are unchanged. -/
theorem C8_provision_fills_defaults (m : Module) :
    ∃ tpl, Template.Parse "Package" DefaultTemplate = .ok tpl ∧
      m.Provision =
        ({ Path := m.Path, Vcs := if m.Vcs = "" then "git" else m.Vcs, URI := m.URI,
           Template := some (m.Template.getD tpl) }, none) :=
  ⟨_, parse_default, provision_eq m⟩

/-- C9: for a module with a template and a request with `go-get=1`, `ServeHTTP` returns
an error exactly when the execution of the template fails; the error then has status 500
and carries the error of the template, and the response writer is as that one execution
left it. -/
theorem C9_error_iff_execute_fails (m : Module) (t : Template) (w : ResponseWriter)
    (r : Request) (hT : m.Template = some t) (hget : r.FormValue "go-get" = "1") :
    ∃ w1 err, Module.ServeHTTP m w r = some (w1, err) ∧
      (err ≠ none ↔
        (t.Execute w { Host := r.Host, Path := m.Path, Vcs := m.Vcs, URI := m.URI }).2 ≠ none) ∧
      (∀ e, (t.Execute w { Host := r.Host, Path := m.Path, Vcs := m.Vcs, URI := m.URI }).2 = some e →
        err = some { StatusCode := 500, Err := e } ∧
        w1 = (t.Execute w { Host := r.Host, Path := m.Path, Vcs := m.Vcs, URI := m.URI }).1) ∧
      ((t.Execute w { Host := r.Host, Path := m.Path, Vcs := m.Vcs, URI := m.URI }).2 = none →
        w1 = (t.Execute w { Host := r.Host, Path := m.Path, Vcs := m.Vcs, URI := m.URI }).1.HeaderSet
          "Content-Type" "text/html") := by
  generalize hex : t.Execute w { Host := r.Host, Path := m.Path, Vcs := m.Vcs, URI := m.URI } = ex
  obtain ⟨w2, e2⟩ := ex
  cases e2 with
  | none =>
    refine ⟨w2.HeaderSet "Content-Type" "text/html", none, ?_, by simp, by simp, by simp⟩
    simp [Module.ServeHTTP, hget, hT, hex]
  | some e =>
    refine ⟨w2, some { StatusCode := 500, Err := e }, ?_, by simp, by simp, by simp⟩
    simp [Module.ServeHTTP, hget, hT, hex, caddyhttp.Error, StatusInternalServerError]

/-- The claim C9 at a template that asks for a field the handler does not pass: the
execution fails and the error has status 500. -/
theorem C9_error_iff_execute_fails_witness :
    Module.ServeHTTP { fooModule with Template := some repoTemplate } { calls := [] } goGetRequest
      = some ({ calls := [Call.Write "go get "] },
          some { StatusCode := 500, Err := ExecError.cantEvaluateField "Repo" }) := by
  obtain ⟨w1, err, h1, _, h3, _⟩ :=
    C9_error_iff_execute_fails { fooModule with Template := some repoTemplate } repoTemplate
      { calls := [] } goGetRequest rfl (by decide)
  obtain ⟨he, hw⟩ := h3 (ExecError.cantEvaluateField "Repo") rfl
  rw [h1, he, hw]
  rfl

/-- C5: for a module provisioned with the default template and a request with
`go-get=1`, where host, path, vcs and URI are free of HTML-special characters, the body
`ServeHTTP` writes is `DefaultTemplate` with the four values in place of the actions: it
contains the `go-import` meta element for these values and the line `go get host path`. -/
theorem C5_default_template_body (m0 m : Module) (r : Request)
    (hT : m0.Template = none) (hm : m0.Provision = (m, none))
    (hget : r.FormValue "go-get" = "1")
    (hHost : htmlSafe r.Host) (hPath : htmlSafe m.Path) (hVcs : htmlSafe m.Vcs)
    (hURI : htmlSafe m.URI) :
    ∃ w1, Module.ServeHTTP m { calls := [] } r = some (w1, none) ∧
      bodyOf w1.calls =
        "<html>\n<head>\n" ++ goImportMeta r.Host m.Path m.Vcs m.URI ++
          "\n</head>\n<body>\n" ++ goGetLine r.Host m.Path ++ "\n</body>\n</html>\n" ∧
      Contains (bodyOf w1.calls) (goImportMeta r.Host m.Path m.Vcs m.URI) ∧
      Contains (bodyOf w1.calls) ("\n" ++ goGetLine r.Host m.Path ++ "\n") := by
  have hm1 : m.Template = some { Name := "Package", Nodes := defaultNodes } := by
    rw [provision_eq, hT] at hm
    have := (Prod.mk.inj hm).1
    rw [← this]
    rfl
  have hbody : ∃ w1, Module.ServeHTTP m { calls := [] } r = some (w1, none) ∧
      bodyOf w1.calls =
        "<html>\n<head>\n" ++ goImportMeta r.Host m.Path m.Vcs m.URI ++
          "\n</head>\n<body>\n" ++ goGetLine r.Host m.Path ++ "\n</body>\n</html>\n" := by
    refine ⟨_, serve_default m _ r hm1 hget, ?_⟩
    · have e1 : ("<html>\n<head>\n<meta name=\"go-import\" content=\"" : String)
          = "<html>\n<head>\n" ++ "<meta name=\"go-import\" content=\"" := by decide
      have e2 : ("\">\n</head>\n<body>\ngo get " : String)
          = "\">" ++ "\n</head>\n<body>\n" ++ "go get " := by decide
      simp only [ResponseWriter.HeaderSet, List.nil_append, List.cons_append, bodyOf,
        htmlReplacer_of_safe _ hHost, htmlReplacer_of_safe _ hPath,
        htmlReplacer_of_safe _ hVcs, htmlReplacer_of_safe _ hURI, goImportMeta, goGetLine]
      rw [e1, e2]
      simp only [String.append_assoc, String.append_empty]
  obtain ⟨w1, h1, h2⟩ := hbody
  refine ⟨w1, h1, h2, ?_, ?_⟩
  · exact ⟨"<html>\n<head>\n",
      "\n</head>\n<body>\n" ++ goGetLine r.Host m.Path ++ "\n</body>\n</html>\n",
      by rw [h2]; simp only [String.append_assoc]⟩
  · refine ⟨"<html>\n<head>\n" ++ goImportMeta r.Host m.Path m.Vcs m.URI ++ "\n</head>\n<body>",
      "</body>\n</html>\n", ?_⟩
    have e3 : ("\n</head>\n<body>\n" : String) = "\n</head>\n<body>" ++ "\n" := by decide
    have e4 : ("\n</body>\n</html>\n" : String) = "\n" ++ "</body>\n</html>\n" := by decide
    rw [h2, e3, e4]
    simp only [String.append_assoc]

/-- The claim C5 at path `/foo`, vcs `git`, URI `https://example.com/foo` and host
`example.com`. -/
theorem C5_default_template_body_witness :
    ∃ w1, Module.ServeHTTP fooModule.Provision.1 { calls := [] } goGetRequest = some (w1, none) ∧
      bodyOf w1.calls =
        "<html>\n<head>\n<meta name=\"go-import\" content=\"example.com/foo git https://example.com/foo\">\n</head>\n<body>\ngo get example.com/foo\n</body>\n</html>\n" ∧
      Contains (bodyOf w1.calls)
        "<meta name=\"go-import\" content=\"example.com/foo git https://example.com/foo\">" ∧
      Contains (bodyOf w1.calls) "\ngo get example.com/foo\n" := by
  obtain ⟨w1, h1, h2, h3, h4⟩ :=
    C5_default_template_body fooModule fooModule.Provision.1 goGetRequest rfl rfl
      (by decide) (by decide) (by decide) (by decide) (by decide)
  exact ⟨w1, h1, h2.trans (by decide), h3, h4⟩

set_option maxRecDepth 100000 in
/-- C6 (defect of the code): for the example module with a template whose output is the
plain line `go get host path`, and a request with `go-get=1`, `ServeHTTP` renders without
error, writes the whole body first and sets `Content-Type: text/html` afterwards.  The
headers were fixed by the first write, so the header is only in the header map of the
handler: the response that delivers the body is sent with the content type the server
sniffs from the body, `text/plain; charset=utf-8`, not with HTML. -/
theorem C6_content_type_set_after_body :
    ∃ w1, Module.ServeHTTP { fooModule with Template := some plainTemplate }.Provision.1
        { calls := [] } goGetRequest = some (w1, none) ∧
      w1.calls.getLast? = some (Call.HeaderSet "Content-Type" "text/html") ∧
      Response.replay w1.calls =
        { header := [("Content-Type", "text/html")], wroteHeader := true, status := 200,
          sent := [("Content-Type", "text/plain; charset=utf-8")],
          body := "go get example.com/foo\n" } :=
  ⟨_, rfl, rfl, by decide⟩

/-- C10 (defect of the code): `parseCaddyFile` moves past the directive name and
`UnmarshalCaddyfile` then moves past the path.  On `gopkg /foo git https://example.com/foo`
the route is made for the path `git`, with an empty vcs and URI; on
`gopkg /foo https://example.com/foo` the result is an argument error. -/
theorem C10_parseCaddyFile_skips_path :
    parseCaddyFile (NewDispenser (lineTokens ["gopkg", "/foo", "git", "https://example.com/foo"]))
      = some (.ok [{ Class := "route",
                     Value := { MatcherSets := [[("path", JSONValue.str "git")]],
                                Handlers := [{ Path := "git", Vcs := "", URI := "",
                                               Template := none }] } }])
    ∧ parseCaddyFile (NewDispenser (lineTokens ["gopkg", "/foo", "https://example.com/foo"]))
      = some (.error (Dispenser.ArgErr
          { tokens := lineTokens ["gopkg", "/foo", "https://example.com/foo"], cursor := 2 })) := by
  constructor <;> rfl

end Gopkg
